import Mathlib

/-!
Verification of the provider relay core of a desktop AI-CLI switching tool:
the wildcard model matcher and model mapping of `providerservice.go`, the
candidate filtering, level-bucket selection and single-shot forwarding of the
relay's `proxyHandler`, and the per-provider reliability state machine of
`blacklistservice.go`.

Conventions:
* Go strings that the code inspects character by character are modelled as
  `List Char`; Go maps (whose iteration order the code either sorts or is
  insensitive to for the facts proved here) are modelled as association lists
  in insertion order.
* Timestamps and durations are integer nanoseconds (`Int`), as in Go's
  `time.Time` / `time.Duration`.  The configuration's float64 hour fields are
  modelled exactly over `Rat`; for the shipped default values (2.5h, 3h) the
  float64 arithmetic in the source is exact, so the models agree.
* Database rows become explicit state (`Option BlacklistRecord`); database and
  settings lookups become explicit parameters.
-/

namespace BMATools

/-- Go `strings.HasPrefix s pre`: `s` begins with `pre`. -/
def goHasPrefix : List Char → List Char → Bool
  | _, [] => true
  | [], _ :: _ => false
  | c :: s, d :: p => c = d && goHasPrefix s p

/-- Go `strings.HasSuffix s suf`: `s` ends with `suf`. -/
def goHasSuffix (s suf : List Char) : Bool :=
  goHasPrefix s.reverse suf.reverse

/-- Go `strings.Split s sep` for a one-character separator `sep`. -/
def splitOnChar (sep : Char) : List Char → List (List Char)
  | [] => [[]]
  | c :: rest =>
    match splitOnChar sep rest with
    | [] => [[]]
    | h :: t => if c = sep then [] :: h :: t else (c :: h) :: t

/-- Go `strings.Replace s sep repl 1` for a one-character separator:
replace the first occurrence of `sep` in `s` by `repl`. -/
def replaceFirst (sep : Char) (repl : List Char) : List Char → List Char
  | [] => []
  | c :: rest => if c = sep then repl ++ rest else c :: replaceFirst sep repl rest

/-- Go map lookup on an association list (first binding wins). -/
def mapGet {β : Type} : List (List Char × β) → List Char → Option β
  | [], _ => none
  | (k, v) :: rest, key => if k = key then some v else mapGet rest key

/-- Go map insertion of a key that is not yet present (append a binding). -/
def mapInsert {β : Type} (m : List (List Char × β)) (k : List Char) (v : β) :
    List (List Char × β) :=
  m ++ [(k, v)]

/-- `matchWildcard` from providerservice.go: exact equality when the pattern
has no `*`; with exactly one `*`, a prefix plus suffix containment test; any
other number of `*` never matches. -/
def matchWildcard (pattern text : List Char) : Bool :=
  if '*' ∉ pattern then pattern == text
  else
    match splitOnChar '*' pattern with
    | [a, b] => goHasPrefix text a && goHasSuffix text b
    | _ => false

/-- `applyWildcardMapping` from providerservice.go.  The Go slice
`input[len(a) : len(input)-len(b)]` is rendered with `take`/`drop`; the
source panics when `len(input)-len(b) < len(a)`, and the theorems below only
evaluate this function on inputs where the slice bounds are valid. -/
def applyWildcardMapping (pattern replacement input : List Char) : List Char :=
  if '*' ∉ pattern ∨ '*' ∉ replacement then replacement
  else
    match splitOnChar '*' pattern with
    | [a, b] =>
      if goHasPrefix input a && goHasSuffix input b then
        let wildcardPart := (input.take (input.length - b.length)).drop a.length
        replaceFirst '*' wildcardPart replacement
      else replacement
    | _ => replacement

/-- The relay-relevant fields of `Provider` from providerservice.go.
`supportedModels` and `modelMapping` are Go maps with `omitempty`: a `nil`
map and an empty map behave identically in every code path modelled here, so
both are rendered as `[]`. -/
structure Provider where
  id : Int
  name : String
  apiURL : String
  apiKey : String
  enabled : Bool
  supportedModels : List (List Char × Bool)
  modelMapping : List (List Char × List Char)
  level : Int
deriving DecidableEq

/-- `Provider.IsModelSupported` from providerservice.go: with neither a
whitelist nor a mapping configured, every model is supported; otherwise the
model must appear (exactly or by wildcard) among the whitelist entries or the
mapping keys. -/
def IsModelSupported (p : Provider) (modelName : List Char) : Bool :=
  if p.supportedModels = [] ∧ p.modelMapping = [] then true
  else
    (mapGet p.supportedModels modelName).getD false
    || p.supportedModels.any (fun e => matchWildcard e.1 modelName)
    || (mapGet p.modelMapping modelName).isSome
    || p.modelMapping.any (fun e => matchWildcard e.1 modelName)

/-- `Provider.GetEffectiveModel` from providerservice.go.  The Go source
returns the first wildcard hit of a (randomly ordered) map iteration; the
model resolves that nondeterminism to insertion order via `find?`. -/
def GetEffectiveModel (p : Provider) (requestedModel : List Char) : List Char :=
  if p.modelMapping = [] then requestedModel
  else
    match mapGet p.modelMapping requestedModel with
    | some mappedModel => mappedModel
    | none =>
      match p.modelMapping.find? (fun e => matchWildcard e.1 requestedModel) with
      | some (pat, rep) => applyWildcardMapping pat rep requestedModel
      | none => requestedModel

/-- The messages produced by `Provider.ValidateConfiguration`, abstracted
from their format strings.  Only `invalidMapping` (rule 1) is an error-class
message; the source prefixes the other two (rules 2 and 3) with an advisory
marker. -/
inductive ValidationMsg
  | invalidMapping (external internal : List Char)
  | mappingWithoutWhitelist
  | selfMapping (external : List Char)
deriving DecidableEq

/-- Whether a validation message is one of the two advisory (warning-only)
messages rather than the rule-1 error-class message. -/
def ValidationMsg.isAdvisory : ValidationMsg → Bool
  | .invalidMapping _ _ => false
  | .mappingWithoutWhitelist => true
  | .selfMapping _ => true

/-- Rule 1 of `Provider.ValidateConfiguration`: every non-wildcard mapping
target must appear (exactly or by wildcard) in the whitelist. -/
def rule1Msgs (p : Provider) : List ValidationMsg :=
  if p.modelMapping ≠ [] ∧ p.supportedModels ≠ [] then
    p.modelMapping.filterMap (fun e =>
      if '*' ∈ e.2 then none
      else if (mapGet p.supportedModels e.2).getD false
              || p.supportedModels.any (fun s => matchWildcard s.1 e.2) then none
      else some (.invalidMapping e.1 e.2))
  else []

/-- `Provider.ValidateConfiguration` from providerservice.go: rule 1
(error-class invalid mapping targets), rule 2 (advisory: mapping without
whitelist), rule 3 (advisory: self mapping), concatenated in rule order. -/
def ValidateConfiguration (p : Provider) : List ValidationMsg :=
  rule1Msgs p
  ++ (if p.modelMapping ≠ [] ∧ p.supportedModels = [] then
        [ValidationMsg.mappingWithoutWhitelist] else [])
  ++ p.modelMapping.filterMap (fun e =>
      if e.1 = e.2 then some (ValidationMsg.selfMapping e.1) else none)

/-- The candidate filter of `proxyHandler` (part_004): enabled, URL and key
set, empty validation result, model supported (vacuously when the request
names no model), and not currently blacklisted.  The blacklist lookup is the
oracle `isBlk`. -/
def eligibleProvider (requestedModel : List Char) (isBlk : String → Bool)
    (p : Provider) : Bool :=
  p.enabled && !(p.apiURL == "") && !(p.apiKey == "")
  && (ValidateConfiguration p).isEmpty
  && (requestedModel.isEmpty || IsModelSupported p requestedModel)
  && !(isBlk p.name)

/-- The `active` list built by `proxyHandler`: source order, filtered. -/
def filterCandidates (providers : List Provider) (requestedModel : List Char)
    (isBlk : String → Bool) : List Provider :=
  providers.filter (eligibleProvider requestedModel isBlk)

/-- Level normalisation in `proxyHandler`: unset or non-positive level is
treated as level 1. -/
def normLevel (l : Int) : Int := if l ≤ 0 then 1 else l

/-- The level bucket `levelGroups[l]` of `proxyHandler`; appending during a
front-to-back walk of `active` preserves its order, hence `filter`. -/
def bucketOf (active : List Provider) (l : Int) : List Provider :=
  active.filter (fun p => normLevel p.level = l)

/-- The ascending-sorted distinct bucket keys (`sort.Ints(levels)`). -/
def levelsOf (active : List Provider) : List Int :=
  List.insertionSort (· ≤ ·) ((active.map fun p => normLevel p.level).dedup)

/-- Provider selection in `proxyHandler`: first provider of the bucket with
the smallest key. -/
def selectProvider (active : List Provider) : Option Provider :=
  match levelsOf active with
  | [] => none
  | l :: _ => (bucketOf active l).head?

/-- What `proxyHandler` writes back to the client after the filter phase. -/
inductive ProxyReply
  | upstreamResponse (providerName : String)
  | badGateway (providerName : String)
  | noProviders
deriving DecidableEq

/-- HTTP status written by the handler itself; `none` when a 2xx upstream
response is streamed through unchanged. -/
def ProxyReply.ownStatus : ProxyReply → Option Nat
  | .upstreamResponse _ => none
  | .badGateway _ => some 502
  | .noProviders => some 404

/-- Observable effects of one `proxyHandler` invocation after filtering:
the reply, the providers forwarded to, and the providers passed to
`RecordSuccess` / `RecordFailure`. -/
structure ProxyOutcome where
  reply : ProxyReply
  forwarded : List String
  recordSuccessCalls : List String
  recordFailureCalls : List String
deriving DecidableEq

/-- The tail of `proxyHandler` (part_004): selection, one forward attempt,
outcome recording.  `forwardOk p` is the result of `forwardRequest` (true on
a 2xx streamed response).  The model-rewrite 500 path is omitted: it requires
a body without a `model` field, impossible once `requestedModel` was read
from that very field. -/
def proxyDispatch (active : List Provider) (forwardOk : Provider → Bool) :
    ProxyOutcome :=
  if active = [] then ⟨.noProviders, [], [], []⟩
  else
    match selectProvider active with
    | none => ⟨.noProviders, [], [], []⟩
    | some p =>
      if forwardOk p then
        ⟨.upstreamResponse p.name, [p.name], [p.name], []⟩
      else
        ⟨.badGateway p.name, [p.name], [], [p.name]⟩

/-- Nanoseconds per second, minute and hour (Go `time.Second` etc.). -/
def nsPerSecond : Int := 1000000000

/-- Nanoseconds per minute. -/
def nsPerMinute : Int := 60000000000

/-- Nanoseconds per hour. -/
def nsPerHour : Int := 3600000000000

/-- Truncation of a rational toward zero, the semantics of Go's
float64-to-int64 conversion. -/
def ratTrunc (q : Rat) : Int := if 0 ≤ q then Int.floor q else -(Int.floor (-q))

/-- Go `time.Duration(hours * float64(time.Hour))`: the float64 product is
modelled exactly over `Rat`; for the default configuration values (1, 2.5
and 3 hours) the source's float64 arithmetic is exact, so the two agree. -/
def hoursToNs (hours : Rat) : Int := ratTrunc (hours * 3600000000000)

/-- `BlacklistLevelConfig` from the settings service (part_005). -/
structure BlacklistLevelConfig where
  enableLevelBlacklist : Bool
  failureThreshold : Int
  dedupeWindowSeconds : Int
  normalDegradeIntervalHours : Rat
  forgivenessHours : Rat
  jumpPenaltyWindowHours : Rat
  l1DurationMinutes : Int
  l2DurationMinutes : Int
  l3DurationMinutes : Int
  l4DurationMinutes : Int
  l5DurationMinutes : Int
  fallbackMode : String
  fallbackDurationMinutes : Int
deriving DecidableEq

/-- `DefaultBlacklistLevelConfig` from the settings service (part_005). -/
def DefaultBlacklistLevelConfig : BlacklistLevelConfig :=
  { enableLevelBlacklist := false
    failureThreshold := 3
    dedupeWindowSeconds := 30
    normalDegradeIntervalHours := 1
    forgivenessHours := 3
    jumpPenaltyWindowHours := 5/2
    l1DurationMinutes := 5
    l2DurationMinutes := 15
    l3DurationMinutes := 60
    l4DurationMinutes := 360
    l5DurationMinutes := 1440
    fallbackMode := "fixed"
    fallbackDurationMinutes := 30 }

/-- One `provider_blacklist` row for a (platform, providerName) pair.
Nullable SQL timestamps are `Option Int` (nanoseconds). -/
structure BlacklistRecord where
  failureCount : Int
  blacklistedAt : Option Int
  blacklistedUntil : Option Int
  lastFailureAt : Option Int
  blacklistLevel : Int
  lastRecoveredAt : Option Int
  lastDegradeHour : Int
  lastFailureWindowStart : Option Int
  autoRecovered : Bool
deriving DecidableEq

/-- Go `t.Valid && t.Time.After(now)` on a nullable timestamp. -/
def validAfter (t : Option Int) (now : Int) : Bool :=
  match t with
  | some u => decide (now < u)
  | none => false

/-- Go `t.Valid && t.Time.Before(now)` on a nullable timestamp. -/
def validBefore (t : Option Int) (now : Int) : Bool :=
  match t with
  | some u => decide (u < now)
  | none => false

/-- The 30-second dedupe-window test of `RecordFailure`
(blacklistservice.go): the last failure-window anchor is set and closer to
`now` than the configured window. -/
def inDedupeWindow (cfg : BlacklistLevelConfig) (now : Int)
    (r : BlacklistRecord) : Bool :=
  match r.lastFailureWindowStart with
  | some w => decide (now - w < cfg.dedupeWindowSeconds * nsPerSecond)
  | none => false

/-- `getLevelDuration` from blacklistservice.go (minutes per level, L1 as
the default for out-of-range levels). -/
def getLevelDuration (level : Int) (config : BlacklistLevelConfig) : Int :=
  if level = 1 then config.l1DurationMinutes
  else if level = 2 then config.l2DurationMinutes
  else if level = 3 then config.l3DurationMinutes
  else if level = 4 then config.l4DurationMinutes
  else if level = 5 then config.l5DurationMinutes
  else config.l1DurationMinutes

/-- A fresh `provider_blacklist` row as inserted on a first failure; columns
the INSERT omits keep their SQL defaults (NULL, 0, false). -/
def freshFailureRecord (now : Int) (windowStart : Option Int) :
    BlacklistRecord :=
  { failureCount := 1
    blacklistedAt := none
    blacklistedUntil := none
    lastFailureAt := some now
    blacklistLevel := 0
    lastRecoveredAt := none
    lastDegradeHour := 0
    lastFailureWindowStart := windowStart
    autoRecovered := false }

/-- `recordFailureFixedMode` from blacklistservice.go: the pre-level
N-strikes-then-block policy.  On reaching the threshold the source stores the
incremented `failure_count`, not zero. -/
def recordFailureFixedMode (fallbackMode : String)
    (fallbackDuration failureThreshold : Int) (now : Int)
    (st : Option BlacklistRecord) : Option BlacklistRecord :=
  if fallbackMode == "none" then st
  else
    match st with
    | none => some (freshFailureRecord now none)
    | some r =>
      if validAfter r.blacklistedUntil now then st
      else
        let failureCount := r.failureCount + 1
        if failureCount ≥ failureThreshold then
          some { r with
                 failureCount := failureCount
                 lastFailureAt := some now
                 blacklistedAt := some now
                 blacklistedUntil := some (now + fallbackDuration * nsPerMinute)
                 autoRecovered := false }
        else
          some { r with failureCount := failureCount, lastFailureAt := some now }

/-- `RecordFailure` from blacklistservice.go.  `enabled` is
`IsBlacklistEnabled()`; `fixedSettings` is the result of
`GetBlacklistSettings()` (`none` models its error path, which falls back to
the level config's threshold and fallback duration). -/
def RecordFailure (enabled : Bool) (cfg : BlacklistLevelConfig)
    (fixedSettings : Option (Int × Int)) (now : Int)
    (st : Option BlacklistRecord) : Option BlacklistRecord :=
  if !enabled then st
  else if !cfg.enableLevelBlacklist then
    let ts := match fixedSettings with
      | some p => p
      | none => (cfg.failureThreshold, cfg.fallbackDurationMinutes)
    recordFailureFixedMode cfg.fallbackMode ts.2 ts.1 now st
  else
    match st with
    | none => some (freshFailureRecord now (some now))
    | some r =>
      if validAfter r.blacklistedUntil now then st
      else if inDedupeWindow cfg now r then st
      else
        let failureCount := r.failureCount + 1
        if failureCount ≥ cfg.failureThreshold then
          let levelIncrease : Int :=
            match r.lastRecoveredAt with
            | some t =>
              if now - t ≤ hoursToNs cfg.jumpPenaltyWindowHours then 2 else 1
            | none => 1
          let rawLevel := r.blacklistLevel + levelIncrease
          let newLevel := if rawLevel > 5 then 5 else rawLevel
          let duration := getLevelDuration newLevel cfg
          some { r with
                 failureCount := 0
                 lastFailureAt := some now
                 blacklistedAt := some now
                 blacklistedUntil := some (now + duration * nsPerMinute)
                 blacklistLevel := newLevel
                 autoRecovered := false
                 lastFailureWindowStart := some now }
        else
          some { r with
                 failureCount := failureCount
                 lastFailureAt := some now
                 lastFailureWindowStart := some now }

/-- `RecordSuccess` from blacklistservice.go: zero the failure count, stamp
`lastRecoveredAt` on a just-expired blacklist, then (level mode only) apply
forgiveness or hourly degrade.  `Int.tdiv` renders Go's
`int(timeSinceRecovery.Hours())`, a float64 division truncated toward zero;
the two differ only when the float division rounds across an hour boundary,
which no theorem below depends on. -/
def RecordSuccess (cfg : BlacklistLevelConfig) (now : Int)
    (st : Option BlacklistRecord) : Option BlacklistRecord :=
  match st with
  | none => none
  | some r =>
    let lastRecoveredAt :=
      if validBefore r.blacklistedUntil now && r.lastRecoveredAt.isNone
      then some now else r.lastRecoveredAt
    if !cfg.enableLevelBlacklist then
      some { r with failureCount := 0 }
    else
      let levelAndHour : Int × Int :=
        match lastRecoveredAt with
        | some t =>
          if r.blacklistLevel > 0 then
            let timeSinceRecovery := now - t
            let hoursSinceRecovery := Int.tdiv timeSinceRecovery nsPerHour
            if hoursToNs cfg.forgivenessHours ≤ timeSinceRecovery
                ∧ 3 ≤ r.blacklistLevel then
              (0, 0)
            else if r.lastDegradeHour < hoursSinceRecovery then
              let hoursPassed := hoursSinceRecovery - r.lastDegradeHour
              let nl := r.blacklistLevel - hoursPassed
              (if nl < 0 then 0 else nl, hoursSinceRecovery)
            else (r.blacklistLevel, r.lastDegradeHour)
          else (r.blacklistLevel, r.lastDegradeHour)
        | none => (r.blacklistLevel, r.lastDegradeHour)
      some { r with
             failureCount := 0
             blacklistLevel := levelAndHour.1
             lastRecoveredAt := lastRecoveredAt
             lastDegradeHour := levelAndHour.2 }

/-- The outcome of the database interaction inside `IsBlacklisted`: a failed
connection, a failed query, no matching row, or the row's
`blacklisted_until` column. -/
inductive DbOutcome
  | connError
  | queryError
  | noRows
  | row (blacklistedUntil : Option Int)
deriving DecidableEq

/-- `IsBlacklisted` from blacklistservice.go: every failure path answers
(false, none); only a stored expiry strictly after `now` answers true,
together with that expiry. -/
def IsBlacklisted (enabled : Bool) (dbo : DbOutcome) (now : Int) :
    Bool × Option Int :=
  if !enabled then (false, none)
  else
    match dbo with
    | .connError => (false, none)
    | .queryError => (false, none)
    | .noRows => (false, none)
    | .row u =>
      match u with
      | some t => if now < t then (true, some t) else (false, none)
      | none => (false, none)

/-- A provider mapping `c-*` to `a/c-*`, used as the C7 witness. -/
def pMapW : Provider :=
  { id := 1, name := "m", apiURL := "u", apiKey := "k", enabled := true,
    supportedModels := [],
    modelMapping := [(['c', '-', '*'], ['a', '/', 'c', '-', '*'])], level := 1 }

/-- A provider with neither whitelist nor mapping configured (the back-compat
state in which `IsModelSupported` accepts everything). -/
def pUnconfigured : Provider :=
  { id := 1, name := "p", apiURL := "u", apiKey := "k", enabled := true,
    supportedModels := [], modelMapping := [], level := 1 }

/-- A provider whose only validation message is the advisory rule-2 warning
(mapping configured, whitelist empty). -/
def pAdvisory : Provider :=
  { id := 1, name := "adv", apiURL := "u", apiKey := "k", enabled := true,
    supportedModels := [], modelMapping := [(['a'], ['b'])], level := 1 }

/-- Two providers used in the C1 witness: `two` at level 2 listed first,
`one` at level 1 listed second. -/
def pLvl2 : Provider :=
  { id := 2, name := "two", apiURL := "u", apiKey := "k", enabled := true,
    supportedModels := [], modelMapping := [], level := 2 }

/-- Level-1 provider for the C1 witness. -/
def pLvl1 : Provider :=
  { id := 1, name := "one", apiURL := "u", apiKey := "k", enabled := true,
    supportedModels := [], modelMapping := [], level := 1 }

/-- The default configuration with the level system switched on, used as the
concrete configuration of the blacklist witnesses. -/
def cfgLevelOn : BlacklistLevelConfig :=
  { DefaultBlacklistLevelConfig with enableLevelBlacklist := true }

/-- A concrete record used by blacklist witnesses: two prior failures, level
2, recovered at time 0, no active blacklist. -/
def rJump : BlacklistRecord :=
  { failureCount := 2, blacklistedAt := none, blacklistedUntil := none,
    lastFailureAt := some 100, blacklistLevel := 2,
    lastRecoveredAt := some 0, lastDegradeHour := 0,
    lastFailureWindowStart := none, autoRecovered := false }

/-- A level-4 record recovered at time 0, used as the C5 witness. -/
def rForgive : BlacklistRecord :=
  { failureCount := 0, blacklistedAt := none, blacklistedUntil := none,
    lastFailureAt := some 100, blacklistLevel := 4,
    lastRecoveredAt := some 0, lastDegradeHour := 0,
    lastFailureWindowStart := none, autoRecovered := false }

/-- A record with two prior failures and no active blacklist, used by the
C9 counterexample and witness. -/
def rTwoFailures : BlacklistRecord :=
  { failureCount := 2, blacklistedAt := none, blacklistedUntil := none,
    lastFailureAt := some 0, blacklistLevel := 0, lastRecoveredAt := none,
    lastDegradeHour := 0, lastFailureWindowStart := none,
    autoRecovered := false }

theorem goHasPrefix_iff (s p : List Char) : goHasPrefix s p = true ↔ p <+: s := by
  induction p generalizing s with
  | nil => simp [goHasPrefix]
  | cons d p ih =>
    cases s with
    | nil => simp [goHasPrefix]
    | cons c s =>
      simp only [goHasPrefix, Bool.and_eq_true, decide_eq_true_eq, ih,
        List.cons_prefix_cons]
      exact ⟨fun ⟨h1, h2⟩ => ⟨h1.symm, h2⟩, fun ⟨h1, h2⟩ => ⟨h1.symm, h2⟩⟩

theorem goHasSuffix_iff (s p : List Char) : goHasSuffix s p = true ↔ p <:+ s := by
  rw [goHasSuffix, goHasPrefix_iff, List.reverse_prefix]

theorem splitOnChar_ne_nil (sep : Char) (l : List Char) :
    splitOnChar sep l ≠ [] := by
  cases l with
  | nil => simp [splitOnChar]
  | cons c rest =>
    rw [splitOnChar]
    cases h : splitOnChar sep rest with
    | nil => simp
    | cons hd tl => by_cases hcs : c = sep <;> simp [hcs]

theorem splitOnChar_of_not_mem {sep : Char} {l : List Char} (h : sep ∉ l) :
    splitOnChar sep l = [l] := by
  induction l with
  | nil => rfl
  | cons c rest ih =>
    rw [splitOnChar, ih (fun hm => h (List.mem_cons_of_mem _ hm))]
    have hc : ¬(c = sep) := fun he => h (he ▸ List.mem_cons_self _ _)
    simp [hc]

theorem splitOnChar_sep_cons (sep : Char) (b : List Char) :
    splitOnChar sep (sep :: b) = [] :: splitOnChar sep b := by
  rw [splitOnChar]
  cases h : splitOnChar sep b with
  | nil => exact absurd h (splitOnChar_ne_nil _ _)
  | cons hd tl => simp

theorem splitOnChar_append {sep : Char} {a b : List Char} (h : sep ∉ a) :
    splitOnChar sep (a ++ sep :: b) = a :: splitOnChar sep b := by
  induction a with
  | nil => simpa using splitOnChar_sep_cons sep b
  | cons c a ih =>
    have hc : ¬(c = sep) := fun he => h (he ▸ List.mem_cons_self _ _)
    have ha : sep ∉ a := fun hm => h (List.mem_cons_of_mem _ hm)
    rw [List.cons_append, splitOnChar, ih ha]
    simp [hc]

theorem length_splitOnChar (sep : Char) (l : List Char) :
    (splitOnChar sep l).length = l.count sep + 1 := by
  induction l with
  | nil => simp [splitOnChar]
  | cons c rest ih =>
    rw [splitOnChar]
    cases h : splitOnChar sep rest with
    | nil => exact absurd h (splitOnChar_ne_nil _ _)
    | cons hd tl =>
      rw [h] at ih
      have ih' : tl.length = rest.count sep := by simpa using ih
      by_cases hcs : c = sep <;> simp [hcs, List.count_cons, ih']

theorem replaceFirst_append {c d mid : List Char} (hc : '*' ∉ c) :
    replaceFirst '*' mid (c ++ '*' :: d) = c ++ mid ++ d := by
  induction c with
  | nil => simp [replaceFirst]
  | cons x c ih =>
    have hx : ¬(x = '*') := fun he => hc (he ▸ List.mem_cons_self _ _)
    have hcc : '*' ∉ c := fun hm => hc (List.mem_cons_of_mem _ hm)
    simp [replaceFirst, hx, ih hcc]

theorem mapGet_append_of_some {β : Type} {m : List (List Char × β)}
    {key : List Char} {v : β} (h : mapGet m key = some v)
    (m2 : List (List Char × β)) : mapGet (m ++ m2) key = some v := by
  induction m with
  | nil => simp [mapGet] at h
  | cons e rest ih =>
    rw [List.cons_append]
    rw [mapGet] at h ⊢
    by_cases hk : e.1 = key
    · simpa [hk] using by simpa [hk] using h
    · simp only [hk, if_false] at h ⊢
      exact ih h

theorem mapGet_nil_of_nil {β : Type} {m : List (List Char × β)}
    {key : List Char} (h : m = []) : mapGet m key = none := by
  subst h; rfl

theorem head?_filter_eq_find? {α : Type} (p : α → Bool) (l : List α) :
    (l.filter p).head? = l.find? p := by
  induction l with
  | nil => rfl
  | cons x xs ih =>
    by_cases h : p x <;> simp [List.filter_cons, List.find?_cons, h, ih]

theorem selectProvider_spec (active : List Provider) (hne : active ≠ []) :
    ∃ p, selectProvider active = some p ∧ p ∈ active ∧
      (∀ q ∈ active, normLevel p.level ≤ normLevel q.level) ∧
      active.find? (fun q => normLevel q.level = normLevel p.level) = some p := by
  have hLne : (active.map fun q => normLevel q.level) ≠ [] := by
    simpa using hne
  have hDne : ((active.map fun q => normLevel q.level).dedup) ≠ [] := by
    intro hD
    rcases List.exists_mem_of_ne_nil _ hLne with ⟨x, hx⟩
    have : x ∈ (active.map fun q => normLevel q.level).dedup :=
      List.mem_dedup.mpr hx
    simp [hD] at this
  have hperm := List.perm_insertionSort (α := Int) (· ≤ ·)
    ((active.map fun q => normLevel q.level).dedup)
  have hsorted := List.sorted_insertionSort (α := Int) (· ≤ ·)
    ((active.map fun q => normLevel q.level).dedup)
  cases hS : levelsOf active with
  | nil =>
    have h0 : List.insertionSort (α := Int) (· ≤ ·)
        ((active.map fun q => normLevel q.level).dedup) = [] := by
      simpa [levelsOf] using hS
    rw [h0] at hperm
    exact absurd hperm.symm.eq_nil hDne
  | cons l S' =>
    have hS2 : List.insertionSort (α := Int) (· ≤ ·)
        ((active.map fun q => normLevel q.level).dedup) = l :: S' := by
      simpa [levelsOf] using hS
    rw [hS2] at hperm hsorted
    have hmin : ∀ x ∈ (active.map fun q => normLevel q.level), l ≤ x := by
      intro x hx
      have hxS : x ∈ l :: S' := hperm.mem_iff.mpr (List.mem_dedup.mpr hx)
      rcases List.mem_cons.mp hxS with h | h
      · exact le_of_eq h.symm
      · exact List.rel_of_sorted_cons hsorted x h
    have hlmem : l ∈ (active.map fun q => normLevel q.level) :=
      List.mem_dedup.mp (hperm.mem_iff.mp (List.mem_cons_self _ _))
    rcases List.mem_map.mp hlmem with ⟨p0, hp0, hp0l⟩
    have hfilterne : active.filter (fun q => normLevel q.level = l) ≠ [] := by
      intro hnil
      have : p0 ∈ active.filter (fun q => normLevel q.level = l) :=
        List.mem_filter.mpr ⟨hp0, by simp [hp0l]⟩
      simp [hnil] at this
    have hsel : selectProvider active
        = (active.filter (fun q => normLevel q.level = l)).head? := by
      unfold selectProvider
      rw [hS]
      rfl
    cases hhd : (active.filter (fun q => normLevel q.level = l)).head? with
    | none =>
      exact absurd (List.head?_eq_none_iff.mp hhd) hfilterne
    | some p =>
      have hpmem : p ∈ active.filter (fun q => normLevel q.level = l) :=
        List.mem_of_mem_head? (by rw [hhd]; rfl)
      have hpf := List.mem_filter.mp hpmem
      have hpl : normLevel p.level = l := by simpa using hpf.2
      refine ⟨p, by rw [hsel, hhd], hpf.1, ?_, ?_⟩
      · intro q hq
        rw [hpl]
        exact hmin _ (List.mem_map.mpr ⟨q, hq, rfl⟩)
      · rw [← head?_filter_eq_find?, hpl, hhd]

/-- C2: a pattern with no `*` matches only on exact string equality; a
pattern with exactly one `*` (written `a ++ '*' :: b` with star-free `a` and
`b`) matches exactly the texts that start with `a` and end with `b`; a
pattern with two or more `*` never matches any text. -/
theorem C2_matchWildcard (pattern text : List Char) :
    (pattern.count '*' = 0 →
      (matchWildcard pattern text = true ↔ pattern = text)) ∧
    (∀ a b, '*' ∉ a → '*' ∉ b → pattern = a ++ '*' :: b →
      (matchWildcard pattern text = true ↔ (a <+: text ∧ b <:+ text))) ∧
    (2 ≤ pattern.count '*' → matchWildcard pattern text = false) := by
  refine ⟨?_, ?_, ?_⟩
  · intro h0
    have hnm : '*' ∉ pattern := List.count_eq_zero.mp h0
    rw [matchWildcard, if_pos hnm]
    exact beq_iff_eq
  · rintro a b ha hb rfl
    have hmem : '*' ∈ a ++ '*' :: b :=
      List.mem_append_right _ (List.mem_cons_self _ _)
    rw [matchWildcard, if_neg (not_not_intro hmem),
      splitOnChar_append ha, splitOnChar_of_not_mem hb]
    simp [goHasPrefix_iff, goHasSuffix_iff]
  · intro h2
    have hmem : '*' ∈ pattern := by
      by_contra hnm
      rw [List.count_eq_zero.mpr hnm] at h2
      omega
    have hlen := length_splitOnChar '*' pattern
    rw [matchWildcard, if_neg (not_not_intro hmem)]
    obtain ⟨x, y, z, rest, hsp⟩ :
        ∃ x y z rest, splitOnChar '*' pattern = x :: y :: z :: rest := by
      rcases h : splitOnChar '*' pattern with _ | ⟨x, _ | ⟨y, _ | ⟨z, rest⟩⟩⟩
      · rw [h] at hlen
        simp at hlen
      · rw [h] at hlen
        simp at hlen
        omega
      · rw [h] at hlen
        simp at hlen
        omega
      · exact ⟨x, y, z, rest, rfl⟩
    rw [hsp]

/-- Witness for C2 at concrete inputs: an exact match, a one-star
prefix-suffix match, and a two-star pattern that never matches. -/
theorem C2_matchWildcard_witness :
    matchWildcard ['a', 'b'] ['a', 'b'] = true ∧
    matchWildcard ['a', '*', 'b'] ['a', 'x', 'y', 'b'] = true ∧
    matchWildcard ['*', 'x', '*'] ['a', 'x', 'b'] = false := by
  refine ⟨?_, ?_, ?_⟩
  · exact ((C2_matchWildcard ['a', 'b'] ['a', 'b']).1 (by decide)).mpr rfl
  · exact ((C2_matchWildcard ['a', '*', 'b'] ['a', 'x', 'y', 'b']).2.1
      ['a'] ['b'] (by decide) (by decide) rfl).mpr
      ⟨⟨['x', 'y', 'b'], rfl⟩, ⟨['a', 'x', 'y'], rfl⟩⟩
  · exact (C2_matchWildcard ['*', 'x', '*'] ['a', 'x', 'b']).2.2 (by decide)

theorem applyWildcardMapping_eq {a b c d mid : List Char}
    (ha : '*' ∉ a) (hb : '*' ∉ b) (hc : '*' ∉ c) :
    applyWildcardMapping (a ++ '*' :: b) (c ++ '*' :: d) (a ++ mid ++ b)
      = c ++ mid ++ d := by
  have hps : '*' ∈ a ++ '*' :: b :=
    List.mem_append_right _ (List.mem_cons_self _ _)
  have hrs : '*' ∈ c ++ '*' :: d :=
    List.mem_append_right _ (List.mem_cons_self _ _)
  have hpre : goHasPrefix (a ++ (mid ++ b)) a = true :=
    (goHasPrefix_iff _ _).mpr ⟨mid ++ b, rfl⟩
  have hsuf : goHasSuffix (a ++ (mid ++ b)) b = true :=
    (goHasSuffix_iff _ _).mpr ⟨a ++ mid, by rw [List.append_assoc]⟩
  have h1 : (a ++ mid ++ b).length - b.length = (a ++ mid).length := by
    simp [List.length_append]
    omega
  unfold applyWildcardMapping
  rw [if_neg (by push_neg; exact ⟨hps, hrs⟩)]
  rw [splitOnChar_append ha, splitOnChar_of_not_mem hb]
  dsimp only
  rw [if_pos (by simp [hpre, hsuf])]
  rw [h1, List.take_left, List.drop_left, replaceFirst_append hc]

/-- C7: an exact `modelMapping` key wins and yields its stored value; a
wildcard hit substitutes the variable segment of the requested model into
the star position of the mapping value; with no applicable entry the
requested model is returned unchanged. -/
theorem C7_GetEffectiveModel (p : Provider) (requestedModel : List Char) :
    (∀ v, mapGet p.modelMapping requestedModel = some v →
      GetEffectiveModel p requestedModel = v) ∧
    (mapGet p.modelMapping requestedModel = none →
      ∀ pat rep,
        p.modelMapping.find? (fun e => matchWildcard e.1 requestedModel)
          = some (pat, rep) →
      ∀ a b mid c d, '*' ∉ a → '*' ∉ b → '*' ∉ c →
        pat = a ++ '*' :: b → rep = c ++ '*' :: d →
        requestedModel = a ++ mid ++ b →
        GetEffectiveModel p requestedModel = c ++ mid ++ d) ∧
    (mapGet p.modelMapping requestedModel = none →
      p.modelMapping.find? (fun e => matchWildcard e.1 requestedModel)
        = none →
      GetEffectiveModel p requestedModel = requestedModel) := by
  refine ⟨?_, ?_, ?_⟩
  · intro v hv
    have hmm : ¬(p.modelMapping = []) := by
      intro h
      rw [h] at hv
      simp [mapGet] at hv
    rw [GetEffectiveModel, if_neg hmm, hv]
  · intro h0 pat rep hfind a b mid c d ha hb hc hpat hrep hreq
    have hmm : ¬(p.modelMapping = []) := by
      intro h
      rw [h] at hfind
      simp at hfind
    rw [GetEffectiveModel, if_neg hmm, h0, hfind]
    subst hpat hrep hreq
    exact applyWildcardMapping_eq ha hb hc
  · intro h0 hf
    by_cases hmm : p.modelMapping = []
    · rw [GetEffectiveModel, if_pos hmm]
    · rw [GetEffectiveModel, if_neg hmm, h0, hf]

/-- Witness for C7: the wildcard mapping `c-*` to `a/c-*` sends `c-x` to
`a/c-x`. -/
theorem C7_GetEffectiveModel_witness :
    GetEffectiveModel pMapW ['c', '-', 'x'] = ['a', '/', 'c', '-', 'x'] :=
  (C7_GetEffectiveModel pMapW ['c', '-', 'x']).2.1 (by decide)
    ['c', '-', '*'] ['a', '/', 'c', '-', '*'] (by decide)
    ['c', '-'] [] ['x'] ['a', '/', 'c', '-'] []
    (by decide) (by decide) (by decide) rfl rfl rfl

/-- C6 counterexample: with both maps empty, every model is supported; after
adding the whitelist entry `x`, the previously-true model `y` is no longer
supported, so adding a `supportedModels` entry is not monotone. -/
theorem C6_counterexample :
    IsModelSupported pUnconfigured ['y'] = true ∧
    mapGet pUnconfigured.supportedModels ['x'] = none ∧
    IsModelSupported
      { pUnconfigured with
        supportedModels := mapInsert pUnconfigured.supportedModels ['x'] true }
      ['y'] = false := by
  refine ⟨rfl, rfl, ?_⟩
  decide

/-- C6 amended: with neither map configured every model is supported, and
for a provider that is not in that unconfigured state, adding a fresh entry
to `supportedModels` never turns a supported model into an unsupported
one. -/
theorem C6_amended (p : Provider) :
    (p.supportedModels = [] → p.modelMapping = [] →
      ∀ m, IsModelSupported p m = true) ∧
    (∀ m k v, ¬(p.supportedModels = [] ∧ p.modelMapping = []) →
      mapGet p.supportedModels k = none →
      IsModelSupported p m = true →
      IsModelSupported
        { p with supportedModels := mapInsert p.supportedModels k v } m
        = true) := by
  constructor
  · intro h1 h2 m
    rw [IsModelSupported, if_pos ⟨h1, h2⟩]
  · intro m k v hne hfresh htrue
    rw [IsModelSupported, if_neg hne] at htrue
    have hne2 : ¬(mapInsert p.supportedModels k v = [] ∧ p.modelMapping = []) := by
      rintro ⟨h1, -⟩
      simpa [mapInsert] using congrArg List.length h1
    rw [IsModelSupported]
    rw [if_neg hne2]
    have h' : (mapGet p.supportedModels m).getD false = true
        ∨ p.supportedModels.any (fun e => matchWildcard e.1 m) = true
        ∨ (mapGet p.modelMapping m).isSome = true
        ∨ p.modelMapping.any (fun e => matchWildcard e.1 m) = true := by
      simpa [or_assoc] using htrue
    rcases h' with h1 | h2 | h3 | h4
    · have hg : mapGet p.supportedModels m = some true := by
        cases hg0 : mapGet p.supportedModels m with
        | none => rw [hg0] at h1; simp at h1
        | some b => rw [hg0] at h1; simp at h1; rw [h1]
      simp [mapInsert, mapGet_append_of_some hg]
    · simp [mapInsert, List.any_append, h2]
    · simp [h3]
    · simp [h4]

/-- Witness for the amended C6: a provider with whitelist entry `a` supports
model `a`, and still does after adding the fresh entry `b`. -/
theorem C6_amended_witness :
    IsModelSupported
      { pUnconfigured with supportedModels := [(['a'], true)] } ['a'] = true ∧
    IsModelSupported
      { pUnconfigured with
        supportedModels :=
          mapInsert [(['a'], true)] ['b'] true } ['a'] = true := by
  have h :=
    (C6_amended { pUnconfigured with supportedModels := [(['a'], true)] }).2
      ['a'] ['b'] true (by decide) (by decide) (by decide)
  exact ⟨by decide, h⟩

/-- C8 counterexample: `pAdvisory` is enabled, has URL and key, supports the
requested model, is not blacklisted, and its validation result consists of
advisory warnings only — yet `proxyHandler`'s filter (which skips on any
non-empty validation result) drops it from the candidate set. -/
theorem C8_counterexample :
    ValidateConfiguration pAdvisory = [ValidationMsg.mappingWithoutWhitelist] ∧
    (∀ msg ∈ ValidateConfiguration pAdvisory, msg.isAdvisory = true) ∧
    pAdvisory.enabled = true ∧
    ¬(pAdvisory.apiURL = "") ∧
    ¬(pAdvisory.apiKey = "") ∧
    IsModelSupported pAdvisory ['a'] = true ∧
    filterCandidates [pAdvisory] ['a'] (fun _ => false) = [] := by
  decide

/-- C8 amended: the relay's candidate filter keeps a provider exactly when it
is enabled with URL and key set, its `ValidateConfiguration` result is empty
(advisory warnings included — any message causes a skip), it supports the
requested model (vacuously for an empty model), and it is not blacklisted. -/
theorem C8_amended (providers : List Provider) (requestedModel : List Char)
    (isBlk : String → Bool) (p : Provider) (hp : p ∈ providers) :
    p ∈ filterCandidates providers requestedModel isBlk ↔
      p.enabled = true ∧ ¬(p.apiURL = "") ∧ ¬(p.apiKey = "") ∧
      ValidateConfiguration p = [] ∧
      (requestedModel = [] ∨ IsModelSupported p requestedModel = true) ∧
      isBlk p.name = false := by
  rw [filterCandidates, List.mem_filter]
  simp only [hp, true_and, eligibleProvider, Bool.and_eq_true, Bool.not_eq_true',
    beq_eq_false_iff_ne, ne_eq, List.isEmpty_iff, List.isEmpty_eq_true,
    Bool.or_eq_true]
  constructor
  · rintro ⟨⟨⟨⟨⟨h1, h2⟩, h3⟩, h4⟩, h5⟩, h6⟩
    exact ⟨h1, by simpa using h2, by simpa using h3, by simpa using h4,
      by simpa using h5, h6⟩
  · rintro ⟨h1, h2, h3, h4, h5, h6⟩
    exact ⟨⟨⟨⟨⟨h1, by simpa using h2⟩, by simpa using h3⟩, by simpa using h4⟩,
      by simpa using h5⟩, h6⟩

/-- Witness for the amended C8: a fully clean provider passes the filter. -/
theorem C8_amended_witness :
    { pUnconfigured with supportedModels := [(['a'], true)] } ∈
      filterCandidates
        [{ pUnconfigured with supportedModels := [(['a'], true)] }]
        ['a'] (fun _ => false) := by
  exact (C8_amended
    [{ pUnconfigured with supportedModels := [(['a'], true)] }]
    ['a'] (fun _ => false)
    { pUnconfigured with supportedModels := [(['a'], true)] }
    (by decide)).mpr
    ⟨by decide, by decide, by decide, by decide, Or.inr (by decide), rfl⟩

/-- C1: with a non-empty eligible candidate set, the relay selects the first
provider of the lowest-numbered level bucket (non-positive levels normalised
to 1) and forwards to exactly that one provider; a failed forward records a
failure for it and answers 502 without touching any other provider, a
successful (2xx) forward records a success for it. -/
theorem C1_singleShotDispatch (active : List Provider)
    (forwardOk : Provider → Bool) (hne : active ≠ []) :
    ∃ p, selectProvider active = some p ∧ p ∈ active ∧
      (∀ q ∈ active, normLevel p.level ≤ normLevel q.level) ∧
      active.find? (fun q => normLevel q.level = normLevel p.level) = some p ∧
      (proxyDispatch active forwardOk).forwarded = [p.name] ∧
      (forwardOk p = true →
        proxyDispatch active forwardOk =
          ⟨ProxyReply.upstreamResponse p.name, [p.name], [p.name], []⟩) ∧
      (forwardOk p = false →
        proxyDispatch active forwardOk =
          ⟨ProxyReply.badGateway p.name, [p.name], [], [p.name]⟩ ∧
        (proxyDispatch active forwardOk).reply.ownStatus = some 502) := by
  obtain ⟨p, hsel, hmem, hmin, hfind⟩ := selectProvider_spec active hne
  have hdisp : proxyDispatch active forwardOk =
      if forwardOk p then
        ⟨ProxyReply.upstreamResponse p.name, [p.name], [p.name], []⟩
      else
        ⟨ProxyReply.badGateway p.name, [p.name], [], [p.name]⟩ := by
    rw [proxyDispatch, if_neg hne, hsel]
  refine ⟨p, hsel, hmem, hmin, hfind, ?_, ?_, ?_⟩
  · rw [hdisp]
    by_cases hf : forwardOk p <;> simp [hf]
  · intro hf
    rw [hdisp, if_pos hf]
  · intro hf
    rw [hdisp, if_neg (by rw [hf]; exact Bool.false_ne_true)]
    exact ⟨rfl, rfl⟩

/-- Witness for C1: with candidates `[two (level 2), one (level 1)]` and a
failing forward, the level-1 provider is selected, it alone is forwarded to
and failure-recorded, and the client gets a 502 naming it. -/
theorem C1_singleShotDispatch_witness :
    selectProvider [pLvl2, pLvl1] = some pLvl1 ∧
    proxyDispatch [pLvl2, pLvl1] (fun _ => false) =
      ⟨ProxyReply.badGateway "one", ["one"], [], ["one"]⟩ := by
  obtain ⟨p, hsel, -, -, -, -, -, hfail⟩ :=
    C1_singleShotDispatch [pLvl2, pLvl1] (fun _ => false) (by simp)
  have hp : p = pLvl1 := by
    have hconc : selectProvider [pLvl2, pLvl1] = some pLvl1 := by decide
    rw [hconc] at hsel
    exact (Option.some_inj.mp hsel).symm
  subst hp
  exact ⟨hsel, (hfail rfl).1⟩

/-- C3: with the level mode and the blacklist feature enabled and a failure
threshold of 3, three failures spaced outside the dedupe window, starting
from no record, blacklist the provider exactly on the third call: after the
first and second call `blacklistedUntil` is unset, after the third it is a
future timestamp (level 1). -/
theorem C3_thirdFailureBlacklists (cfg : BlacklistLevelConfig) (t1 t2 t3 : Int)
    (hen : cfg.enableLevelBlacklist = true)
    (hth : cfg.failureThreshold = 3)
    (hd1 : 0 < cfg.l1DurationMinutes)
    (h12 : cfg.dedupeWindowSeconds * nsPerSecond ≤ t2 - t1)
    (h23 : cfg.dedupeWindowSeconds * nsPerSecond ≤ t3 - t2) :
    (∃ r1, RecordFailure true cfg none t1 none = some r1 ∧
      r1.blacklistedUntil = none ∧ r1.failureCount = 1) ∧
    (∃ r2, RecordFailure true cfg none t2 (RecordFailure true cfg none t1 none)
        = some r2 ∧ r2.blacklistedUntil = none ∧ r2.failureCount = 2) ∧
    (∃ r3 u, RecordFailure true cfg none t3 (RecordFailure true cfg none t2
        (RecordFailure true cfg none t1 none)) = some r3 ∧
      r3.blacklistedUntil = some u ∧ t3 < u ∧ r3.blacklistLevel = 1) := by
  have hw12 : ¬(t2 - t1 < cfg.dedupeWindowSeconds * nsPerSecond) := by omega
  have hw23 : ¬(t3 - t2 < cfg.dedupeWindowSeconds * nsPerSecond) := by omega
  have h1 : RecordFailure true cfg none t1 none
      = some (freshFailureRecord t1 (some t1)) := by
    simp [RecordFailure, hen]
  have h2 : RecordFailure true cfg none t2 (some (freshFailureRecord t1 (some t1)))
      = some { freshFailureRecord t1 (some t1) with
               failureCount := 2, lastFailureAt := some t2,
               lastFailureWindowStart := some t2 } := by
    simp [RecordFailure, hen, hth, validAfter, inDedupeWindow,
      freshFailureRecord, hw12]
  have h3 : RecordFailure true cfg none t3
      (some { freshFailureRecord t1 (some t1) with
              failureCount := 2, lastFailureAt := some t2,
              lastFailureWindowStart := some t2 })
      = some { freshFailureRecord t1 (some t1) with
               failureCount := 0, lastFailureAt := some t3,
               blacklistedAt := some t3,
               blacklistedUntil :=
                 some (t3 + cfg.l1DurationMinutes * nsPerMinute),
               blacklistLevel := 1, autoRecovered := false,
               lastFailureWindowStart := some t3 } := by
    simp [RecordFailure, hen, hth, validAfter, inDedupeWindow,
      freshFailureRecord, hw23, getLevelDuration]
  refine ⟨⟨_, h1, rfl, rfl⟩, ⟨_, by rw [h1]; exact h2, rfl, rfl⟩,
    ⟨_, t3 + cfg.l1DurationMinutes * nsPerMinute,
      by rw [h1, h2]; exact h3, rfl, ?_, rfl⟩⟩
  have hpos : 0 < cfg.l1DurationMinutes * nsPerMinute :=
    mul_pos hd1 (by norm_num [nsPerMinute])
  omega

/-- Witness for C3 at the default level-mode configuration and failures at
0s, 30s and 60s. -/
theorem C3_thirdFailureBlacklists_witness :
    (∃ r1, RecordFailure true cfgLevelOn none 0 none = some r1 ∧
      r1.blacklistedUntil = none ∧ r1.failureCount = 1) ∧
    (∃ r2, RecordFailure true cfgLevelOn none 30000000000
        (RecordFailure true cfgLevelOn none 0 none) = some r2 ∧
      r2.blacklistedUntil = none ∧ r2.failureCount = 2) ∧
    (∃ r3 u, RecordFailure true cfgLevelOn none 60000000000
        (RecordFailure true cfgLevelOn none 30000000000
          (RecordFailure true cfgLevelOn none 0 none)) = some r3 ∧
      r3.blacklistedUntil = some u ∧ (60000000000 : Int) < u ∧
      r3.blacklistLevel = 1) :=
  C3_thirdFailureBlacklists cfgLevelOn 0 30000000000 60000000000
    (by decide) (by decide) (by decide) (by decide) (by decide)

/-- C4: a threshold-reaching `RecordFailure` in level mode raises the level
by 2 (capped at 5) when the last recovery lies within the jump-penalty
window of `now`, and by 1 (capped at 5) when the recovery is older than the
window or absent. -/
theorem C4_jumpPenalty (cfg : BlacklistLevelConfig) (now : Int)
    (r : BlacklistRecord)
    (hen : cfg.enableLevelBlacklist = true)
    (hnb : validAfter r.blacklistedUntil now = false)
    (hdw : inDedupeWindow cfg now r = false)
    (hth : cfg.failureThreshold ≤ r.failureCount + 1) :
    ∃ r', RecordFailure true cfg none now (some r) = some r' ∧
      (∀ t, r.lastRecoveredAt = some t →
        now - t ≤ hoursToNs cfg.jumpPenaltyWindowHours →
        r'.blacklistLevel = min (r.blacklistLevel + 2) 5) ∧
      (∀ t, r.lastRecoveredAt = some t →
        hoursToNs cfg.jumpPenaltyWindowHours < now - t →
        r'.blacklistLevel = min (r.blacklistLevel + 1) 5) ∧
      (r.lastRecoveredAt = none →
        r'.blacklistLevel = min (r.blacklistLevel + 1) 5) := by
  cases hrec : r.lastRecoveredAt with
  | none =>
    have hmain : RecordFailure true cfg none now (some r)
        = some { r with
                 failureCount := 0, lastFailureAt := some now,
                 blacklistedAt := some now,
                 blacklistedUntil := some (now +
                   getLevelDuration
                     (if r.blacklistLevel + 1 > 5 then 5
                      else r.blacklistLevel + 1) cfg * nsPerMinute),
                 blacklistLevel :=
                   if r.blacklistLevel + 1 > 5 then 5
                   else r.blacklistLevel + 1,
                 autoRecovered := false,
                 lastFailureWindowStart := some now } := by
      simp [RecordFailure, hen, hnb, hdw, hrec, hth]
    refine ⟨_, hmain, ?_, ?_, ?_⟩
    · intro t ht
      exact absurd ht (by simp)
    · intro t ht
      exact absurd ht (by simp)
    · intro _
      dsimp only
      simp only [min_def]
      split_ifs <;> omega
  | some t0 =>
    by_cases hwin : now - t0 ≤ hoursToNs cfg.jumpPenaltyWindowHours
    · have hmain : RecordFailure true cfg none now (some r)
          = some { r with
                   failureCount := 0, lastFailureAt := some now,
                   blacklistedAt := some now,
                   blacklistedUntil := some (now +
                     getLevelDuration
                       (if r.blacklistLevel + 2 > 5 then 5
                        else r.blacklistLevel + 2) cfg * nsPerMinute),
                   blacklistLevel :=
                     if r.blacklistLevel + 2 > 5 then 5
                     else r.blacklistLevel + 2,
                   autoRecovered := false,
                   lastFailureWindowStart := some now } := by
        simp [RecordFailure, hen, hnb, hdw, hrec, hth, hwin]
      refine ⟨_, hmain, ?_, ?_, ?_⟩
      · intro t ht _
        dsimp only
        simp only [min_def]
        split_ifs <;> omega
      · intro t ht hgt
        have htt : t0 = t := by simpa using ht
        subst htt
        exact absurd hgt (by omega)
      · intro h
        exact absurd h (by simp)
    · have hmain : RecordFailure true cfg none now (some r)
          = some { r with
                   failureCount := 0, lastFailureAt := some now,
                   blacklistedAt := some now,
                   blacklistedUntil := some (now +
                     getLevelDuration
                       (if r.blacklistLevel + 1 > 5 then 5
                        else r.blacklistLevel + 1) cfg * nsPerMinute),
                   blacklistLevel :=
                     if r.blacklistLevel + 1 > 5 then 5
                     else r.blacklistLevel + 1,
                   autoRecovered := false,
                   lastFailureWindowStart := some now } := by
        simp [RecordFailure, hen, hnb, hdw, hrec, hth, hwin]
      refine ⟨_, hmain, ?_, ?_, ?_⟩
      · intro t ht hle
        have htt : t0 = t := by simpa using ht
        subst htt
        exact absurd hle (by omega)
      · intro t ht _
        dsimp only
        simp only [min_def]
        split_ifs <;> omega
      · intro h
        exact absurd h (by simp)

/-- Witness for C4: a threshold-reaching failure one hour after recovery
(inside the default 2.5h jump window) with prior level 2. -/
theorem C4_jumpPenalty_witness :
    ∃ r', RecordFailure true cfgLevelOn none 3600000000000 (some rJump)
        = some r' ∧
      (∀ t, rJump.lastRecoveredAt = some t →
        3600000000000 - t ≤ hoursToNs cfgLevelOn.jumpPenaltyWindowHours →
        r'.blacklistLevel = min (rJump.blacklistLevel + 2) 5) ∧
      (∀ t, rJump.lastRecoveredAt = some t →
        hoursToNs cfgLevelOn.jumpPenaltyWindowHours < 3600000000000 - t →
        r'.blacklistLevel = min (rJump.blacklistLevel + 1) 5) ∧
      (rJump.lastRecoveredAt = none →
        r'.blacklistLevel = min (rJump.blacklistLevel + 1) 5) :=
  C4_jumpPenalty cfgLevelOn 3600000000000 rJump
    (by decide) (by decide) (by decide) (by decide)

/-- C5: in level mode, a success recorded at least the forgiveness duration
after the last recovery, on a record at level at least 3, resets the level
to 0. -/
theorem C5_forgiveness (cfg : BlacklistLevelConfig) (now : Int)
    (r : BlacklistRecord) (t : Int)
    (hen : cfg.enableLevelBlacklist = true)
    (hrec : r.lastRecoveredAt = some t)
    (hlvl : 3 ≤ r.blacklistLevel)
    (hforg : hoursToNs cfg.forgivenessHours ≤ now - t) :
    ∃ r', RecordSuccess cfg now (some r) = some r' ∧
      r'.blacklistLevel = 0 ∧ r'.failureCount = 0 ∧
      r'.lastDegradeHour = 0 := by
  have hpos : r.blacklistLevel > 0 := by omega
  have hmain : RecordSuccess cfg now (some r)
      = some { r with
               failureCount := 0, blacklistLevel := 0,
               lastRecoveredAt := some t, lastDegradeHour := 0 } := by
    simp [RecordSuccess, hen, hrec, hpos, hforg, hlvl]
  exact ⟨_, hmain, rfl, rfl, rfl⟩

theorem hoursToNs_eq_of_cast {q : Rat} {n : Int} (hq : 0 ≤ q)
    (h : (n : Rat) = q * 3600000000000) : hoursToNs q = n := by
  rw [hoursToNs, ratTrunc, if_pos (mul_nonneg hq (by norm_num)), ← h,
    Int.floor_intCast]

theorem forgivenessNs_default :
    hoursToNs cfgLevelOn.forgivenessHours = 10800000000000 :=
  hoursToNs_eq_of_cast (by norm_num [cfgLevelOn, DefaultBlacklistLevelConfig])
    (by norm_num [cfgLevelOn, DefaultBlacklistLevelConfig])

/-- Witness for C5: a success four hours (past the default 3h forgiveness
threshold) after recovery resets a level-4 record to level 0. -/
theorem C5_forgiveness_witness :
    ∃ r', RecordSuccess cfgLevelOn 14400000000000 (some rForgive) = some r' ∧
      r'.blacklistLevel = 0 ∧ r'.failureCount = 0 ∧
      r'.lastDegradeHour = 0 :=
  C5_forgiveness cfgLevelOn 14400000000000 rForgive 0
    (by decide) (by decide) (by decide)
    (by rw [forgivenessNs_default]; norm_num)

/-- C9 counterexample: in the fixed fallback mode (level system off,
threshold 3, 30 minutes), the third failure blacklists the provider
(`blacklistedUntil` set 30 minutes ahead) yet stores `failureCount = 3`,
not 0 as the claim asserts for both modes. -/
theorem C9_counterexample :
    (RecordFailure true DefaultBlacklistLevelConfig (some (3, 30)) 0
        (some rTwoFailures)).map (fun x => (x.failureCount, x.blacklistedUntil))
      = some (3, some 1800000000000) ∧
    ¬((3 : Int) = 0) := by
  refine ⟨?_, by decide⟩
  decide

/-- C9 amended: a threshold-reaching `RecordFailure` in level mode stores
`failureCount = 0`, and `RecordSuccess` on an existing record stores
`failureCount = 0` in both modes; but in the fixed fallback mode a
threshold-reaching failure stores the incremented count (and sets the
blacklist expiry), it does not reset the count to 0. -/
theorem C9_failureCountReset (cfg : BlacklistLevelConfig) (now : Int)
    (r : BlacklistRecord) :
    (cfg.enableLevelBlacklist = true →
      validAfter r.blacklistedUntil now = false →
      inDedupeWindow cfg now r = false →
      cfg.failureThreshold ≤ r.failureCount + 1 →
      ∃ r', RecordFailure true cfg none now (some r) = some r' ∧
        r'.failureCount = 0) ∧
    (∃ r', RecordSuccess cfg now (some r) = some r' ∧ r'.failureCount = 0) ∧
    (∀ mode dur th, ¬(mode = "none") →
      validAfter r.blacklistedUntil now = false →
      th ≤ r.failureCount + 1 →
      ∃ r', recordFailureFixedMode mode dur th now (some r) = some r' ∧
        r'.failureCount = r.failureCount + 1 ∧
        r'.blacklistedUntil = some (now + dur * nsPerMinute)) := by
  refine ⟨?_, ?_, ?_⟩
  · intro hen hnb hdw hth
    cases hrec : r.lastRecoveredAt with
    | none =>
      have hmain : RecordFailure true cfg none now (some r)
          = some { r with
                   failureCount := 0, lastFailureAt := some now,
                   blacklistedAt := some now,
                   blacklistedUntil := some (now +
                     getLevelDuration
                       (if r.blacklistLevel + 1 > 5 then 5
                        else r.blacklistLevel + 1) cfg * nsPerMinute),
                   blacklistLevel :=
                     if r.blacklistLevel + 1 > 5 then 5
                     else r.blacklistLevel + 1,
                   autoRecovered := false,
                   lastFailureWindowStart := some now } := by
        simp [RecordFailure, hen, hnb, hdw, hrec, hth]
      exact ⟨_, hmain, rfl⟩
    | some t0 =>
      by_cases hwin : now - t0 ≤ hoursToNs cfg.jumpPenaltyWindowHours
      · have hmain : RecordFailure true cfg none now (some r)
            = some { r with
                     failureCount := 0, lastFailureAt := some now,
                     blacklistedAt := some now,
                     blacklistedUntil := some (now +
                       getLevelDuration
                         (if r.blacklistLevel + 2 > 5 then 5
                          else r.blacklistLevel + 2) cfg * nsPerMinute),
                     blacklistLevel :=
                       if r.blacklistLevel + 2 > 5 then 5
                       else r.blacklistLevel + 2,
                     autoRecovered := false,
                     lastFailureWindowStart := some now } := by
          simp [RecordFailure, hen, hnb, hdw, hrec, hth, hwin]
        exact ⟨_, hmain, rfl⟩
      · have hmain : RecordFailure true cfg none now (some r)
            = some { r with
                     failureCount := 0, lastFailureAt := some now,
                     blacklistedAt := some now,
                     blacklistedUntil := some (now +
                       getLevelDuration
                         (if r.blacklistLevel + 1 > 5 then 5
                          else r.blacklistLevel + 1) cfg * nsPerMinute),
                     blacklistLevel :=
                       if r.blacklistLevel + 1 > 5 then 5
                       else r.blacklistLevel + 1,
                     autoRecovered := false,
                     lastFailureWindowStart := some now } := by
          simp [RecordFailure, hen, hnb, hdw, hrec, hth, hwin]
        exact ⟨_, hmain, rfl⟩
  · simp only [RecordSuccess]
    cases hlev : cfg.enableLevelBlacklist
    · exact ⟨_, rfl, rfl⟩
    · exact ⟨_, rfl, rfl⟩
  · intro mode dur th hmode hnb hth
    have hmain : recordFailureFixedMode mode dur th now (some r)
        = some { r with
                 failureCount := r.failureCount + 1,
                 lastFailureAt := some now, blacklistedAt := some now,
                 blacklistedUntil := some (now + dur * nsPerMinute),
                 autoRecovered := false } := by
      simp [recordFailureFixedMode, hmode, hnb, hth]
    exact ⟨_, hmain, rfl, rfl⟩

/-- Witness for the amended C9, exercising all three clauses at concrete
inputs: a level-mode threshold failure, a success on an existing record, and
a fixed-mode threshold failure. -/
theorem C9_failureCountReset_witness :
    (∃ r', RecordFailure true cfgLevelOn none 0 (some rTwoFailures) = some r' ∧
      r'.failureCount = 0) ∧
    (∃ r', RecordSuccess cfgLevelOn 0 (some rTwoFailures) = some r' ∧
      r'.failureCount = 0) ∧
    (∃ r', recordFailureFixedMode "fixed" 30 3 0 (some rTwoFailures)
        = some r' ∧ r'.failureCount = rTwoFailures.failureCount + 1 ∧
      r'.blacklistedUntil = some (0 + 30 * nsPerMinute)) := by
  obtain ⟨h1, h2, h3⟩ := C9_failureCountReset cfgLevelOn 0 rTwoFailures
  exact ⟨h1 (by decide) (by decide) (by decide) (by decide),
    h2, h3 "fixed" 30 3 (by decide) (by decide) (by decide)⟩

/-- C10: `IsBlacklisted` never blocks on infrastructure or lookup failure:
a disabled feature, a missing row, and connection or query errors all
answer `(false, none)`; a true answer arises only from a stored expiry
strictly after `now`, which is then returned alongside. -/
theorem C10_isBlacklistedSafe (enabled : Bool) (dbo : DbOutcome) (now : Int) :
    (enabled = false → IsBlacklisted enabled dbo now = (false, none)) ∧
    (dbo = DbOutcome.connError →
      IsBlacklisted enabled dbo now = (false, none)) ∧
    (dbo = DbOutcome.queryError →
      IsBlacklisted enabled dbo now = (false, none)) ∧
    (dbo = DbOutcome.noRows → IsBlacklisted enabled dbo now = (false, none)) ∧
    ((IsBlacklisted enabled dbo now).1 = true →
      ∃ t, dbo = DbOutcome.row (some t) ∧ now < t ∧
        IsBlacklisted enabled dbo now = (true, some t)) := by
  refine ⟨?_, ?_, ?_, ?_, ?_⟩
  · rintro rfl
    simp [IsBlacklisted]
  · rintro rfl
    cases enabled <;> simp [IsBlacklisted]
  · rintro rfl
    cases enabled <;> simp [IsBlacklisted]
  · rintro rfl
    cases enabled <;> simp [IsBlacklisted]
  · intro htrue
    cases enabled with
    | false => simp [IsBlacklisted] at htrue
    | true =>
      cases dbo with
      | connError => simp [IsBlacklisted] at htrue
      | queryError => simp [IsBlacklisted] at htrue
      | noRows => simp [IsBlacklisted] at htrue
      | row u =>
        cases u with
        | none => simp [IsBlacklisted] at htrue
        | some t =>
          by_cases hlt : now < t
          · exact ⟨t, rfl, hlt, by simp [IsBlacklisted, hlt]⟩
          · simp [IsBlacklisted, hlt] at htrue

/-- Witness for C10: a future expiry answers true with the expiry, a
connection error and a disabled feature answer `(false, none)`. -/
theorem C10_isBlacklistedSafe_witness :
    IsBlacklisted true (DbOutcome.row (some 10)) 0 = (true, some 10) ∧
    IsBlacklisted true DbOutcome.connError 0 = (false, none) ∧
    IsBlacklisted false (DbOutcome.row (some 10)) 0 = (false, none) := by
  refine ⟨?_, ?_, ?_⟩
  · obtain ⟨t, hd, -, h⟩ :=
      (C10_isBlacklistedSafe true (DbOutcome.row (some 10)) 0).2.2.2.2
        (by decide)
    have ht : t = 10 := by
      have := hd.symm
      simpa using this
    rw [ht] at h
    exact h
  · exact (C10_isBlacklistedSafe true DbOutcome.connError 0).2.1 rfl
  · exact (C10_isBlacklistedSafe false (DbOutcome.row (some 10)) 0).1 rfl

end BMATools
